import Mathlib

/-!
Verification of the batch execution engine of the `batch-run` repository
(`src/main.rs`), a shallow embedding of the `Msg::Run` arm of `App::update`.

The engine, on `Msg::Run`:
  1. creates an anonymous pipe (`pipe()`); on failure reports and returns;
  2. resolves the selected `Language` to a command (executable and argv) and
     spawns the child with the pipe read end as stdin; on failure reports and
     returns;
  3. for each CLI argument string, in order, builds an `InputData` record
     (`line`, `idx`, `len = byte length`, `reversed = code-point reversal`),
     serializes it with `serde_json::to_writer` and writes a terminating
     newline byte; on any write failure reports and returns immediately;
  4. flushes, drops the write end, awaits the child and reports its exit
     status (or the wait error).

The embedding is pure: OS outcomes (pipe creation, spawn, each write, flush,
wait) are supplied by an `OsEnv`, and the run is a function from the inputs
and the environment to a `RunResult` recording the spawned command, the
records and bytes written to the pipe, the stderr log lines, and the value
returned by the future (unit).
-/

namespace BatchRun

/-- The `InputData` struct of `src/main.rs` (the Rust `line: &str` is a
borrowed string; `idx`/`len` are `usize`). -/
structure InputData where
  line : String
  idx : Nat
  len : Nat
  reversed : String
deriving DecidableEq, Repr

/-- The `Language` enum of `src/main.rs`: the closed set of interpreter
selections. -/
inductive Language where
  | Zsh
  | Bash
  | Python
  | Sh
deriving DecidableEq, Repr

/-- Code-point reversal: Rust `arg.chars().rev().collect::<String>()`.
Rust `char` and Lean `Char` are both Unicode scalar values. -/
def revString (s : String) : String :=
  String.mk s.data.reverse

/-- Construction of the `InputData` record for argument `arg` at position
`idx`, exactly as in the streaming loop of `App::update`: `len` is
`arg.len()`, the UTF-8 byte length, and `reversed` is the code-point
reversal. -/
def mkRecord (idx : Nat) (arg : String) : InputData :=
  { line := arg, idx := idx, len := arg.utf8ByteSize, reversed := revString arg }

/-- Lower-case hexadecimal digit, as emitted by `serde_json` in `\u00XX`
escapes. -/
def hexDigit : Nat → Char
  | 0 => '0' | 1 => '1' | 2 => '2' | 3 => '3'
  | 4 => '4' | 5 => '5' | 6 => '6' | 7 => '7'
  | 8 => '8' | 9 => '9' | 10 => 'a' | 11 => 'b'
  | 12 => 'c' | 13 => 'd' | 14 => 'e' | 15 => 'f'
  | _ => '0'

/-- `serde_json`'s default string escaping of a single code point: `"` and
`\` get a backslash escape, control characters U+0000..U+001F get the short
escapes `\b \t \n \f \r` or a `\u00XX` escape, every other code point is
emitted unescaped. -/
def escapeChar (c : Char) : List Char :=
  if c = '"' then ['\\', '"']
  else if c = '\\' then ['\\', '\\']
  else if c.toNat < 32 then
    if c.toNat = 8 then ['\\', 'b']
    else if c.toNat = 9 then ['\\', 't']
    else if c.toNat = 10 then ['\\', 'n']
    else if c.toNat = 12 then ['\\', 'f']
    else if c.toNat = 13 then ['\\', 'r']
    else ['\\', 'u', '0', '0', hexDigit (c.toNat / 16), hexDigit (c.toNat % 16)]
  else [c]

/-- `serde_json` escaping of a whole string (given as its code points). -/
def escapeString : List Char → List Char
  | [] => []
  | c :: cs => escapeChar c ++ escapeString cs

/-- Decimal rendering of a `usize`, as `serde_json` emits integers (decimal
digits are the first ten entries of the hex-digit table). -/
def natChars (n : Nat) : List Char :=
  if n < 10 then [hexDigit n]
  else natChars (n / 10) ++ [hexDigit (n % 10)]
decreasing_by
  exact Nat.div_lt_self (by omega) (by omega)

/-- The byte sequence (modelled at code-point granularity; every emitted
escape is ASCII) produced by `serde_json::to_writer` for one `InputData`
value: `{"line":…,"idx":…,"len":…,"reversed":…}` with fields in declaration
order, as serde's derive emits them. -/
def serializeRecord (d : InputData) : List Char :=
  "\x7b\"line\":\"".data ++ escapeString d.line.data
    ++ "\",\"idx\":".data ++ natChars d.idx
    ++ ",\"len\":".data ++ natChars d.len
    ++ ",\"reversed\":\"".data ++ escapeString d.reversed.data
    ++ "\"\x7d".data

/-- The records built for an argument list when enumeration starts at `idx`:
the streaming loop `for (idx, arg) in args.into_iter().enumerate()` builds
`recordsFrom 0 args`. -/
def recordsFrom (idx : Nat) : List String → List InputData
  | [] => []
  | arg :: rest => mkRecord idx arg :: recordsFrom (idx + 1) rest

/-- The wire bytes for a list of records: each serialized record followed by
one newline byte. -/
def wireChars : List InputData → List Char
  | [] => []
  | r :: rest => serializeRecord r ++ '\n' :: wireChars rest

/-- One stderr line of the run task, one constructor per `eprintln!` call in
the `Msg::Run` future (the OS error text is abstracted away; the exit
status is carried). -/
inductive LogMsg where
  | couldNotCreatePipe
  | couldNotSpawnChild
  | couldNotWriteData
  | couldNotTerminateData
  | couldNotFlushPipe
  | couldNotWaitOnChild
  | exitStatus (s : Int)
deriving DecidableEq, Repr

/-- Outcomes of the OS calls the run future makes: whether `pipe()` fails,
whether `Command::spawn` fails, whether the `serde_json::to_writer` call for
record `idx` fails, whether the `write_all(b"\n")` call after record `idx`
fails, whether the flush fails, whether `child.wait()` fails, and the exit
status `wait` reports on success. -/
structure OsEnv where
  pipeFails : Bool
  spawnFails : Bool
  recordWriteFails : Nat → Bool
  newlineWriteFails : Nat → Bool
  flushFails : Bool
  waitFails : Bool
  exitStatus : Int

/-- Result of one pass of the streaming loop: the records whose
`serde_json::to_writer` call succeeded, the bytes written to the pipe, and
the error (if any) that aborted the loop. -/
structure StreamOut where
  records : List InputData
  chars : List Char
  err : Option LogMsg
deriving DecidableEq, Repr

/-- The streaming loop of the `Msg::Run` future: for each argument, build the
record, serialize it into the pipe, then write the newline terminator; on
the first failing write, report that error and stop (the `return` in the
loop body). A failing `to_writer` call is modelled as writing nothing. -/
def streamLoop (env : OsEnv) : Nat → List String → StreamOut
  | _, [] => ⟨[], [], none⟩
  | idx, arg :: rest =>
    if env.recordWriteFails idx then
      ⟨[], [], some .couldNotWriteData⟩
    else if env.newlineWriteFails idx then
      ⟨[mkRecord idx arg], serializeRecord (mkRecord idx arg), some .couldNotTerminateData⟩
    else
      let out := streamLoop env (idx + 1) rest
      ⟨mkRecord idx arg :: out.records,
        serializeRecord (mkRecord idx arg) ++ '\n' :: out.chars,
        out.err⟩

/-- The `match lang` in the `Msg::Run` future: the executable path and the
ordered argument vector of the spawned command for a selection and a script
text. -/
def resolveCommand (lang : Language) (batch : String) : String × List String :=
  match lang with
  | .Zsh => ("/usr/bin/zsh", ["--emulate", "zsh", "-c", batch, "batch-script-zsh"])
  | .Bash => ("/usr/bin/bash", ["-c", batch, "batch-script-bash"])
  | .Python => ("/usr/bin/python", ["-c", batch])
  | .Sh => ("/usr/bin/sh", ["-c", batch, "batch-script-sh"])

/-- Everything observable about one execution of the `Msg::Run` future:
the command whose spawn was attempted (`none` when `pipe()` failed before
any spawn attempt), the records fully serialized onto the pipe, the bytes
written to the pipe, the stderr lines, and the value the future returns to
the `Task` machinery (the Rust block returns `()` on every path). -/
structure RunResult where
  spawnedCmd : Option (String × List String)
  records : List InputData
  pipeChars : List Char
  log : List LogMsg
  retVal : Unit

/-- The `Msg::Run` future of `App::update`, as a pure function of the
captured inputs (selection, script text, argument list) and the OS
outcomes: create the pipe, spawn the resolved command, stream the records,
flush, await the child; each failure is reported once and ends the run. -/
def runFuture (env : OsEnv) (lang : Language) (batch : String)
    (args : List String) : RunResult :=
  if env.pipeFails then
    ⟨none, [], [], [.couldNotCreatePipe], ()⟩
  else if env.spawnFails then
    ⟨some (resolveCommand lang batch), [], [], [.couldNotSpawnChild], ()⟩
  else
    match (streamLoop env 0 args).err with
    | some e =>
      ⟨some (resolveCommand lang batch), (streamLoop env 0 args).records,
        (streamLoop env 0 args).chars, [e], ()⟩
    | none =>
      if env.flushFails then
        ⟨some (resolveCommand lang batch), (streamLoop env 0 args).records,
          (streamLoop env 0 args).chars, [.couldNotFlushPipe], ()⟩
      else if env.waitFails then
        ⟨some (resolveCommand lang batch), (streamLoop env 0 args).records,
          (streamLoop env 0 args).chars, [.couldNotWaitOnChild], ()⟩
      else
        ⟨some (resolveCommand lang batch), (streamLoop env 0 args).records,
          (streamLoop env 0 args).chars, [.exitStatus env.exitStatus], ()⟩

/-- An environment in which every OS call succeeds and the child exits with
status 0. -/
def envOk : OsEnv :=
  ⟨false, false, fun _ => false, fun _ => false, false, false, 0⟩

/-- An environment in which `pipe()` fails. -/
def envPipeFail : OsEnv :=
  ⟨true, false, fun _ => false, fun _ => false, false, false, 0⟩

/-- An environment in which the `serde_json::to_writer` call for record 1
fails and everything else succeeds. -/
def envWriteFail1 : OsEnv :=
  ⟨false, false, fun j => j == 1, fun _ => false, false, false, 0⟩

/-- An environment in which every OS call succeeds and the child exits with
status 7. -/
def envOk7 : OsEnv :=
  ⟨false, false, fun _ => false, fun _ => false, false, false, 7⟩

/-- No entry of the hex-digit table is the newline character. -/
theorem hexDigit_ne_newline (n : Nat) : hexDigit n ≠ '\n' := by
  unfold hexDigit
  split <;> decide

/-- The newline character is no entry of the hex-digit table. -/
theorem newline_ne_hexDigit (n : Nat) : '\n' ≠ hexDigit n :=
  fun h => hexDigit_ne_newline n h.symm

/-- The escape sequence emitted for any code point never contains a raw
newline: the newline code point itself is turned into the two characters
of `\n`, every other control character into an escape of ASCII letters and
digits, and an unescaped code point is not the newline. -/
theorem newline_not_mem_escapeChar (c : Char) : '\n' ∉ escapeChar c := by
  unfold escapeChar
  by_cases h1 : c = '"'
  · simp [h1]
  · by_cases h2 : c = '\\'
    · simp [h1, h2]
    · by_cases h3 : c.toNat < 32
      · by_cases h4 : c.toNat = 8
        · simp [h1, h2, h3, h4]
        · by_cases h5 : c.toNat = 9
          · simp [h1, h2, h3, h4, h5]
          · by_cases h6 : c.toNat = 10
            · simp [h1, h2, h3, h4, h5, h6]
            · by_cases h7 : c.toNat = 12
              · simp [h1, h2, h3, h4, h5, h6, h7]
              · by_cases h8 : c.toNat = 13
                · simp [h1, h2, h3, h4, h5, h6, h7, h8]
                · simp [h1, h2, h3, h4, h5, h6, h7, h8, newline_ne_hexDigit]
      · simp only [h1, h2, h3, if_false, List.mem_singleton]
        intro hc
        apply h3
        rw [← hc]
        decide

/-- The escaped form of a whole string contains no raw newline. -/
theorem newline_not_mem_escapeString (l : List Char) : '\n' ∉ escapeString l := by
  induction l with
  | nil => simp [escapeString]
  | cons c cs ih =>
    simp only [escapeString, List.mem_append]
    rintro (h | h)
    · exact newline_not_mem_escapeChar c h
    · exact ih h

/-- The decimal rendering of a natural number contains no newline. -/
theorem newline_not_mem_natChars (n : Nat) : '\n' ∉ natChars n := by
  induction n using Nat.strong_induction_on with
  | _ n ih =>
    rw [natChars]
    split
    · simp [newline_ne_hexDigit]
    · simp only [List.mem_append, List.mem_singleton]
      rintro (h | h)
      · exact ih (n / 10) (Nat.div_lt_self (by omega) (by omega)) h
      · exact newline_ne_hexDigit (n % 10) h

/-- The serialized form of a record contains no raw newline byte: every
field is either escaped or a decimal number, and all punctuation is
newline-free. -/
theorem newline_not_mem_serializeRecord (d : InputData) :
    '\n' ∉ serializeRecord d := by
  simp only [serializeRecord, List.mem_append]
  rintro ((((((((h | h) | h) | h) | h) | h) | h) | h) | h)
  · revert h; decide
  · exact newline_not_mem_escapeString d.line.data h
  · revert h; decide
  · exact newline_not_mem_natChars d.idx h
  · revert h; decide
  · exact newline_not_mem_natChars d.len h
  · revert h; decide
  · exact newline_not_mem_escapeString d.reversed.data h
  · revert h; decide

/-- As many records are built as there are arguments. -/
theorem recordsFrom_length (idx : Nat) (args : List String) :
    (recordsFrom idx args).length = args.length := by
  induction args generalizing idx with
  | nil => rfl
  | cons a rest ih => simp [recordsFrom, ih]

/-- The `line` fields of the built records are the argument list itself, in
order. -/
theorem recordsFrom_map_line (idx : Nat) (args : List String) :
    (recordsFrom idx args).map InputData.line = args := by
  induction args generalizing idx with
  | nil => rfl
  | cons a rest ih => simp [recordsFrom, ih, mkRecord]

/-- The record at position `i` carries index `idx + i`. -/
theorem recordsFrom_get_idx (args : List String) : ∀ (idx i : Nat)
    (hi : i < (recordsFrom idx args).length),
    ((recordsFrom idx args).get ⟨i, hi⟩).idx = idx + i := by
  induction args with
  | nil => intro idx i hi; simp [recordsFrom] at hi
  | cons a rest ih =>
    intro idx i hi
    cases i with
    | zero => simp [recordsFrom, mkRecord]
    | succ n =>
      have := ih (idx + 1) n (by simpa [recordsFrom] using hi)
      simp only [recordsFrom, List.get_cons_succ]
      omega

/-- Every built record has `len` equal to the byte length of its `line` and
`reversed` equal to the code-point reversal of its `line`. -/
theorem recordsFrom_mem_fields (idx : Nat) (args : List String) :
    ∀ r ∈ recordsFrom idx args,
      r.len = r.line.utf8ByteSize ∧ r.reversed = revString r.line := by
  induction args generalizing idx with
  | nil => simp [recordsFrom]
  | cons a rest ih =>
    intro r hr
    rcases (List.mem_cons).1 hr with rfl | hr
    · exact ⟨rfl, rfl⟩
    · exact ih (idx + 1) r hr

/-- The wire bytes of a record list contain exactly one newline per record. -/
theorem count_newline_wireChars (rs : List InputData) :
    (wireChars rs).count '\n' = rs.length := by
  induction rs with
  | nil => rfl
  | cons r rest ih =>
    have hz : (serializeRecord r).count '\n' = 0 :=
      List.count_eq_zero.mpr (newline_not_mem_serializeRecord r)
    simp [wireChars, List.count_append, List.count_cons, hz, ih]

/-- When no write fails for the remaining arguments, the streaming loop
writes every record and its newline, in order, and reports no error. -/
theorem streamLoop_ok (env : OsEnv) (args : List String) : ∀ (idx : Nat),
    (∀ j, j < args.length →
      env.recordWriteFails (idx + j) = false ∧ env.newlineWriteFails (idx + j) = false) →
    streamLoop env idx args =
      ⟨recordsFrom idx args, wireChars (recordsFrom idx args), none⟩ := by
  induction args with
  | nil => intro idx _; rfl
  | cons a rest ih =>
    intro idx h
    have h0 := h 0 (by simp)
    rw [Nat.add_zero] at h0
    have hrest : ∀ j, j < rest.length →
        env.recordWriteFails (idx + 1 + j) = false ∧
        env.newlineWriteFails (idx + 1 + j) = false := by
      intro j hj
      have := h (j + 1) (by simp; omega)
      rwa [show idx + (j + 1) = idx + 1 + j by omega] at this
    simp [streamLoop, h0.1, h0.2, ih (idx + 1) hrest, recordsFrom, wireChars]

/-- When the first failing write is the record write or the newline write of
record `idx + k`, the streaming loop stops with that write's error message
and never writes any record of index beyond `idx + k`. -/
theorem streamLoop_fail (env : OsEnv) (args : List String) : ∀ (idx k : Nat),
    k < args.length →
    (∀ j, j < k →
      env.recordWriteFails (idx + j) = false ∧ env.newlineWriteFails (idx + j) = false) →
    (env.recordWriteFails (idx + k) = true ∨ env.newlineWriteFails (idx + k) = true) →
    ∃ m, (streamLoop env idx args).err = some m ∧
      (m = LogMsg.couldNotWriteData ∨ m = LogMsg.couldNotTerminateData) ∧
      ∀ r ∈ (streamLoop env idx args).records, r.idx ≤ idx + k := by
  induction args with
  | nil => intro idx k hk; simp at hk
  | cons a rest ih =>
    intro idx k hk hbefore hfail
    cases k with
    | zero =>
      rw [Nat.add_zero] at hfail
      by_cases hr : env.recordWriteFails idx = true
      · refine ⟨.couldNotWriteData, by simp [streamLoop, hr], Or.inl rfl, ?_⟩
        simp [streamLoop, hr]
      · have hnl : env.newlineWriteFails idx = true := by
          rcases hfail with hf | hf
          · exact absurd hf hr
          · exact hf
        refine ⟨.couldNotTerminateData, by simp [streamLoop, hr, hnl], Or.inr rfl, ?_⟩
        simp [streamLoop, hr, hnl, mkRecord]
    | succ n =>
      have h0 := hbefore 0 (Nat.succ_pos n)
      rw [Nat.add_zero] at h0
      have hres := ih (idx + 1) n (by simpa using Nat.lt_of_succ_lt_succ hk)
        (fun j hj => by
          have := hbefore (j + 1) (Nat.succ_lt_succ hj)
          rwa [show idx + (j + 1) = idx + 1 + j by omega] at this)
        (by rwa [show idx + 1 + n = idx + (n + 1) by omega])
      rcases hres with ⟨m, hm, hkind, hrec⟩
      refine ⟨m, ?_, hkind, ?_⟩
      · simp [streamLoop, h0.1, h0.2, hm]
      · intro r hr
        simp only [streamLoop, h0.1, h0.2, Bool.false_eq_true, if_false,
          List.mem_cons] at hr
        rcases hr with rfl | hr
        · simp only [mkRecord]; omega
        · have := hrec r hr; omega

/-- When the pipe and the spawn succeed and no write fails, the run writes
exactly the canonical records and wire bytes. -/
theorem runFuture_ok_parts (env : OsEnv) (lang : Language) (batch : String)
    (args : List String)
    (hp : env.pipeFails = false) (hs : env.spawnFails = false)
    (hw : ∀ j, j < args.length →
      env.recordWriteFails j = false ∧ env.newlineWriteFails j = false) :
    (runFuture env lang batch args).records = recordsFrom 0 args ∧
    (runFuture env lang batch args).pipeChars = wireChars (recordsFrom 0 args) := by
  have hstream := streamLoop_ok env args 0 (by simpa using hw)
  simp only [runFuture, hp, hs, hstream, Bool.false_eq_true, if_false]
  split
  · exact ⟨rfl, rfl⟩
  · split <;> exact ⟨rfl, rfl⟩

/-- Claim C1: for every argument list of length N (N may be 0), when the
pipe, the spawn and all writes succeed, the streaming stage writes exactly
N records to the pipe, in the original input order (the `line` fields are
the argument list itself), the record at position i carries `idx = i`, and
every record's `len` equals the byte length of its `line`. -/
theorem streaming_writes_all_records (env : OsEnv) (lang : Language)
    (batch : String) (args : List String)
    (hp : env.pipeFails = false) (hs : env.spawnFails = false)
    (hw : ∀ j, j < args.length →
      env.recordWriteFails j = false ∧ env.newlineWriteFails j = false) :
    (runFuture env lang batch args).records.length = args.length ∧
    (runFuture env lang batch args).records.map InputData.line = args ∧
    (∀ i (hi : i < (runFuture env lang batch args).records.length),
      ((runFuture env lang batch args).records.get ⟨i, hi⟩).idx = i) ∧
    ∀ r ∈ (runFuture env lang batch args).records, r.len = r.line.utf8ByteSize := by
  obtain ⟨hrec, -⟩ := runFuture_ok_parts env lang batch args hp hs hw
  rw [hrec]
  refine ⟨recordsFrom_length 0 args, recordsFrom_map_line 0 args, ?_, ?_⟩
  · intro i hi
    simpa using recordsFrom_get_idx args 0 i hi
  · intro r hr
    exact (recordsFrom_mem_fields 0 args r hr).1

/-- Concrete instance of claim C1: a successful run on the argument list
`["a", "bb"]`. -/
theorem streaming_writes_all_records_witness :
    (envOk.pipeFails = false ∧ envOk.spawnFails = false ∧
      (∀ j, j < (["a", "bb"] : List String).length →
        envOk.recordWriteFails j = false ∧ envOk.newlineWriteFails j = false)) ∧
    ((runFuture envOk .Sh "s" ["a", "bb"]).records.length =
        (["a", "bb"] : List String).length ∧
      (runFuture envOk .Sh "s" ["a", "bb"]).records.map InputData.line = ["a", "bb"] ∧
      (∀ i (hi : i < (runFuture envOk .Sh "s" ["a", "bb"]).records.length),
        ((runFuture envOk .Sh "s" ["a", "bb"]).records.get ⟨i, hi⟩).idx = i) ∧
      ∀ r ∈ (runFuture envOk .Sh "s" ["a", "bb"]).records,
        r.len = r.line.utf8ByteSize) :=
  ⟨⟨rfl, rfl, by decide⟩,
    streaming_writes_all_records envOk .Sh "s" ["a", "bb"] rfl rfl (by decide)⟩

/-- Claim C2: the `reversed` field of every built record is the full
code-point reversal of the input string (its code-point list is the
reversed code-point list of the input, so each code point is kept intact,
unlike a byte reversal), and applying the same reversal to `reversed`
restores the original string. -/
theorem reversed_is_codepoint_reversal (idx : Nat) (s : String) :
    (mkRecord idx s).reversed.data = s.data.reverse ∧
    revString (mkRecord idx s).reversed = s := by
  refine ⟨rfl, ?_⟩
  show revString (revString s) = s
  cases s with
  | mk l => simp [revString]

/-- Claim C3: each interpreter selection resolves to exactly the documented
executable and argument template, with the script text substituted in the
single script slot; the template around it never depends on the script. -/
theorem resolveCommand_templates (s : String) :
    resolveCommand .Zsh s =
      ("/usr/bin/zsh", ["--emulate", "zsh", "-c", s, "batch-script-zsh"]) ∧
    resolveCommand .Bash s = ("/usr/bin/bash", ["-c", s, "batch-script-bash"]) ∧
    resolveCommand .Python s = ("/usr/bin/python", ["-c", s]) ∧
    resolveCommand .Sh s = ("/usr/bin/sh", ["-c", s, "batch-script-sh"]) :=
  ⟨rfl, rfl, rfl, rfl⟩

/-- Claim C4: on a successful run the bytes on the pipe are exactly the
serialized records, one per input string in the original order, each
followed by a single newline byte; no serialized record contains a raw
newline (so each record plus its terminator occupies exactly one line),
and the stream contains exactly one newline per argument. Serialization is
a pure function of the record, hence deterministic. -/
theorem wire_format_newline_delimited (env : OsEnv) (lang : Language)
    (batch : String) (args : List String)
    (hp : env.pipeFails = false) (hs : env.spawnFails = false)
    (hw : ∀ j, j < args.length →
      env.recordWriteFails j = false ∧ env.newlineWriteFails j = false) :
    (runFuture env lang batch args).pipeChars = wireChars (recordsFrom 0 args) ∧
    (∀ d : InputData, '\n' ∉ serializeRecord d) ∧
    (runFuture env lang batch args).pipeChars.count '\n' = args.length := by
  obtain ⟨-, hchars⟩ := runFuture_ok_parts env lang batch args hp hs hw
  rw [hchars]
  exact ⟨rfl, newline_not_mem_serializeRecord,
    by rw [count_newline_wireChars, recordsFrom_length]⟩

/-- Concrete instance of claim C4: a successful run on the argument list
`["a", "bb"]`. -/
theorem wire_format_newline_delimited_witness :
    (envOk.pipeFails = false ∧ envOk.spawnFails = false ∧
      (∀ j, j < (["a", "bb"] : List String).length →
        envOk.recordWriteFails j = false ∧ envOk.newlineWriteFails j = false)) ∧
    ((runFuture envOk .Bash "s" ["a", "bb"]).pipeChars =
        wireChars (recordsFrom 0 ["a", "bb"]) ∧
      (∀ d : InputData, '\n' ∉ serializeRecord d) ∧
      (runFuture envOk .Bash "s" ["a", "bb"]).pipeChars.count '\n' =
        (["a", "bb"] : List String).length) :=
  ⟨⟨rfl, rfl, by decide⟩,
    wire_format_newline_delimited envOk .Bash "s" ["a", "bb"] rfl rfl (by decide)⟩

/-- Claim C5: when the first failing write is the record write or the
newline write of record k, the run reports exactly one error message (the
corresponding write error) and aborts streaming immediately: no record
after position k is ever written, with no retry. -/
theorem streaming_aborts_on_write_failure (env : OsEnv) (lang : Language)
    (batch : String) (args : List String) (k : Nat)
    (hp : env.pipeFails = false) (hs : env.spawnFails = false)
    (hk : k < args.length)
    (hbefore : ∀ j, j < k →
      env.recordWriteFails j = false ∧ env.newlineWriteFails j = false)
    (hfail : env.recordWriteFails k = true ∨ env.newlineWriteFails k = true) :
    (∃ m, (runFuture env lang batch args).log = [m] ∧
      (m = LogMsg.couldNotWriteData ∨ m = LogMsg.couldNotTerminateData)) ∧
    ∀ r ∈ (runFuture env lang batch args).records, r.idx ≤ k := by
  obtain ⟨m, hm, hkind, hrec⟩ := streamLoop_fail env args 0 k hk
    (by simpa using hbefore) (by simpa using hfail)
  constructor
  · refine ⟨m, ?_, hkind⟩
    simp only [runFuture, hp, hs, Bool.false_eq_true, if_false, hm]
  · intro r hr
    simp only [runFuture, hp, hs, Bool.false_eq_true, if_false, hm] at hr
    have := hrec r hr
    omega

/-- Concrete instance of claim C5: the record write of record 1 fails during
a run on the argument list `["a", "bb", "cc"]`. -/
theorem streaming_aborts_on_write_failure_witness :
    (envWriteFail1.pipeFails = false ∧ envWriteFail1.spawnFails = false ∧
      1 < (["a", "bb", "cc"] : List String).length ∧
      (∀ j, j < 1 →
        envWriteFail1.recordWriteFails j = false ∧
        envWriteFail1.newlineWriteFails j = false) ∧
      (envWriteFail1.recordWriteFails 1 = true ∨
        envWriteFail1.newlineWriteFails 1 = true)) ∧
    ((∃ m, (runFuture envWriteFail1 .Sh "s" ["a", "bb", "cc"]).log = [m] ∧
        (m = LogMsg.couldNotWriteData ∨ m = LogMsg.couldNotTerminateData)) ∧
      ∀ r ∈ (runFuture envWriteFail1 .Sh "s" ["a", "bb", "cc"]).records,
        r.idx ≤ 1) :=
  ⟨⟨rfl, rfl, by decide, by decide, by decide⟩,
    streaming_aborts_on_write_failure envWriteFail1 .Sh "s" ["a", "bb", "cc"] 1
      rfl rfl (by decide) (by decide) (by decide)⟩

/-- Claim C6: when pipe creation fails, the run reports the channel
creation error and aborts before any spawn attempt: no command spawn is
attempted, no record is built and no byte is written to the pipe. -/
theorem pipe_failure_aborts_before_spawn (env : OsEnv) (lang : Language)
    (batch : String) (args : List String) (h : env.pipeFails = true) :
    (runFuture env lang batch args).log = [LogMsg.couldNotCreatePipe] ∧
    (runFuture env lang batch args).spawnedCmd = none ∧
    (runFuture env lang batch args).records = [] ∧
    (runFuture env lang batch args).pipeChars = [] := by
  simp [runFuture, h]

/-- Concrete instance of claim C6: `pipe()` fails on a run with one
argument. -/
theorem pipe_failure_aborts_before_spawn_witness :
    envPipeFail.pipeFails = true ∧
    ((runFuture envPipeFail .Python "s" ["a"]).log = [LogMsg.couldNotCreatePipe] ∧
      (runFuture envPipeFail .Python "s" ["a"]).spawnedCmd = none ∧
      (runFuture envPipeFail .Python "s" ["a"]).records = [] ∧
      (runFuture envPipeFail .Python "s" ["a"]).pipeChars = []) :=
  ⟨rfl, pipe_failure_aborts_before_spawn envPipeFail .Python "s" ["a"] rfl⟩

/-- Claim C7 fails on the code: the `Msg::Run` future returns `()` on every
path, so two concrete runs with different terminal outcomes (a completed
run with exit status 0 and a run that failed to create its pipe, visibly
different in their stderr logs) hand the very same value back to the
caller. The outcome is only emitted as a side effect, never returned as a
value. -/
theorem run_outcome_not_returned_as_value :
    (runFuture envOk .Sh "" []).retVal = (runFuture envPipeFail .Sh "" []).retVal ∧
    (runFuture envOk .Sh "" []).log ≠ (runFuture envPipeFail .Sh "" []).log :=
  ⟨rfl, by decide⟩

/-- Claim C7, amended: every invocation of the run operation reports
exactly one terminal outcome per run — either the child's exit status or an
error identifying the failed stage — but as a logged side effect; the value
the future delivers to the caller is always the unit value. -/
theorem single_outcome_reported_per_run (env : OsEnv) (lang : Language)
    (batch : String) (args : List String) :
    (∃ m, (runFuture env lang batch args).log = [m]) ∧
    (runFuture env lang batch args).retVal = () := by
  refine ⟨?_, rfl⟩
  unfold runFuture
  split
  · exact ⟨_, rfl⟩
  · split
    · exact ⟨_, rfl⟩
    · split
      · exact ⟨_, rfl⟩
      · split
        · exact ⟨_, rfl⟩
        · split
          · exact ⟨_, rfl⟩
          · exact ⟨_, rfl⟩

/-- Claim C8: two independent runs with identical script, selection and
arguments, in any two environments in which the pipe, the spawn and every
write succeed, produce byte-for-byte identical record streams (and
identical record lists); the environments may differ elsewhere, in
particular in the child's exit status. -/
theorem identical_runs_identical_streams (env1 env2 : OsEnv) (lang : Language)
    (batch : String) (args : List String)
    (hp1 : env1.pipeFails = false) (hs1 : env1.spawnFails = false)
    (hw1 : ∀ j, j < args.length →
      env1.recordWriteFails j = false ∧ env1.newlineWriteFails j = false)
    (hp2 : env2.pipeFails = false) (hs2 : env2.spawnFails = false)
    (hw2 : ∀ j, j < args.length →
      env2.recordWriteFails j = false ∧ env2.newlineWriteFails j = false) :
    (runFuture env1 lang batch args).pipeChars =
      (runFuture env2 lang batch args).pipeChars ∧
    (runFuture env1 lang batch args).records =
      (runFuture env2 lang batch args).records := by
  obtain ⟨hr1, hc1⟩ := runFuture_ok_parts env1 lang batch args hp1 hs1 hw1
  obtain ⟨hr2, hc2⟩ := runFuture_ok_parts env2 lang batch args hp2 hs2 hw2
  rw [hr1, hc1, hr2, hc2]
  exact ⟨rfl, rfl⟩

/-- Concrete instance of claim C8: two successful runs whose children exit
with different statuses (0 and 7) still write identical streams. -/
theorem identical_runs_identical_streams_witness :
    (envOk.pipeFails = false ∧ envOk.spawnFails = false ∧
      (∀ j, j < (["a", "bb"] : List String).length →
        envOk.recordWriteFails j = false ∧ envOk.newlineWriteFails j = false) ∧
      envOk7.pipeFails = false ∧ envOk7.spawnFails = false ∧
      (∀ j, j < (["a", "bb"] : List String).length →
        envOk7.recordWriteFails j = false ∧ envOk7.newlineWriteFails j = false)) ∧
    ((runFuture envOk .Zsh "s" ["a", "bb"]).pipeChars =
        (runFuture envOk7 .Zsh "s" ["a", "bb"]).pipeChars ∧
      (runFuture envOk .Zsh "s" ["a", "bb"]).records =
        (runFuture envOk7 .Zsh "s" ["a", "bb"]).records) :=
  ⟨⟨rfl, rfl, by decide, rfl, rfl, by decide⟩,
    identical_runs_identical_streams envOk envOk7 .Zsh "s" ["a", "bb"]
      rfl rfl (by decide) rfl rfl (by decide)⟩

/-- Claim C10: the bytes written to the pipe (and the records, and even the
stderr log) never depend on the interpreter selection: for any two
selections and the same environment, script and arguments, only the
spawned command can differ. -/
theorem stream_independent_of_language (env : OsEnv) (x y : Language)
    (batch : String) (args : List String) :
    (runFuture env x batch args).pipeChars = (runFuture env y batch args).pipeChars ∧
    (runFuture env x batch args).records = (runFuture env y batch args).records ∧
    (runFuture env x batch args).log = (runFuture env y batch args).log := by
  by_cases hp : env.pipeFails = true
  · simp [runFuture, hp]
  · by_cases hs : env.spawnFails = true
    · simp [runFuture, hp, hs]
    · cases he : (streamLoop env 0 args).err
      · by_cases hf : env.flushFails = true
        · simp [runFuture, hp, hs, he, hf]
        · by_cases hwt : env.waitFails = true
          · simp [runFuture, hp, hs, he, hf, hwt]
          · simp [runFuture, hp, hs, he, hf, hwt]
      · simp [runFuture, hp, hs, he]

end BatchRun
